import Mathlib

/-!
# Verification of the generated Google API client request pipeline

This file gives a shallow embedding, in Lean 4, of the request pipeline of the
generated Google API client libraries (`google-apis-rs`):

* the per-RPC call builders and their `doit` executor from
  `src/gen/chromemanagement1/src/api.rs`
  (`CustomerAppAndroidGetCall::doit`, `CustomerReportCountChromeVersionCall::doit`,
  the `Scope` enum, and the `GoogleTypeDate` / response schema structs), and
* the CLI front-end outcome handling from
  `src/gen/customsearch1-cli/src/main.rs` and
  `src/gen/billingbudgets1_beta1-cli/src/main.rs`.

The `client` support crate (`google-apis-common` / `google_clis_common`) is
referenced by every generated file but its source is not part of the three
files above; following the specification, its pieces (`Params`,
`uri_replacement`, `parse_with_url`, `remove_params`, the `Delegate` trait,
`DefaultDelegate`, `Retry`, the `Error` enum, `remove_json_null_values`) are
modelled from the specification's words.  Every such definition carries a
doc comment starting with `Modelled from the spec:`.

External third-party libraries (`serde_json`, `hyper`, `tokio`, `chrono`,
`clap`) are modelled at their interface:

* JSON documents are the inductive `Json` below; JSON numbers are modelled as
  integers (no claim depends on non-integral numerics).
* A response body is modelled as a `Body`: the raw string together with the
  result of `serde_json::from_str::<serde_json::Value>` on it (`Option Json`),
  since the pipeline only ever branches on whether that parse succeeded.
* The HTTP transport is a function from the request URL and the attempt index
  to the outcome of that attempt; asynchronous sleeping is dropped (durations
  do not influence any control flow).
* `chrono::DateTime` fields deserialize from JSON strings; the (external)
  chrono format validation is modelled as accepting any string.
* `f32` fields accept any JSON number (modelled integral).
-/

/-- JSON documents, modelling `serde_json::Value`.  Objects keep their fields
as an ordered association list; numbers are modelled as integers. -/
inductive Json where
  | null : Json
  | bool (b : Bool) : Json
  | num (n : Int) : Json
  | str (s : String) : Json
  | arr (elems : List Json) : Json
  | obj (fields : List (String × Json)) : Json

/-- A response body: the raw body string (`client::get_body_as_string`)
together with the result of parsing it with
`serde_json::from_str::<serde_json::Value>(..).ok()` (external library,
modelled by carrying the parse outcome). -/
structure Body where
  raw : String
  json : Option Json

/-- `hyper::StatusCode::is_success`: the status class 200–299. -/
def statusIsSuccess (status : Nat) : Bool :=
  200 ≤ status && status < 300

/-- Outcome of one HTTP attempt by `hub.client.request(..)`: either a
transport-level error (`Err(err)` from hyper) or a response with a status
code and a body. -/
inductive TransportResult where
  | transportError (e : String) : TransportResult
  | response (status : Nat) (body : Body) : TransportResult

/-- The restored non-success response (`hyper::Response::from_parts`) kept in
`Error::Failure`: status together with the captured body. -/
structure HttpResp where
  status : Nat
  body : Body

/-- Modelled from the spec: the delegate's answer at a retry decision point —
either "retry after duration D" or a terminal signal (`client::Retry`). -/
inductive Retry where
  | abort : Retry
  | after (millis : Nat) : Retry

/-- Modelled from the spec: the pluggable `client::Delegate` policy object,
reduced to the hooks that influence control flow in `doit`: `token` (may
supply a substitute token after a token-acquisition error), `http_error`
(transport failure) and `http_failure` (non-2xx response, given the restored
response and the optional parsed JSON body).  The purely observational hooks
(`begin`, `pre_request`, `finished`, `response_json_decode_error`) are
accounted for by the `Stats` counters of the executor. -/
structure Delegate where
  token : String → Except String (Option String)
  http_error : String → Retry
  http_failure : HttpResp → Option Json → Retry

/-- Modelled from the spec: the default delegate used when none is supplied
performs no retries (treats every retryable signal as terminal) and lets a
token-acquisition error fail the call. -/
def DefaultDelegate : Delegate where
  token := fun e => .error e
  http_error := fun _ => .abort
  http_failure := fun _ _ => .abort

/-- Modelled from the spec: the `client::Error` taxonomy, restricted to the
variants reachable from the embedded GET calls. -/
inductive CallError where
  | fieldClash (field : String) : CallError
  | missingToken (e : String) : CallError
  | httpError (e : String) : CallError
  | badRequest (error_value : Json) : CallError
  | failure (response : HttpResp) : CallError
  | jsonDecodeError (body : String) (diag : String) : CallError

/-- Observation counters for one `doit` execution: how many times the token
provider was asked (`auth.get_token`, once at the top of every loop
iteration) and how many HTTP requests were issued (`dlg.pre_request` /
`client.request`, once per iteration that reaches the transport). -/
structure Stats where
  tokens : Nat
  requests : Nat
deriving DecidableEq

/-- The retry loop of every generated `doit`
(`src/gen/chromemanagement1/src/api.rs`, e.g. lines 2351–2430): acquire a
token for the scope set (on failure consult `dlg.token`, failing with
`MissingToken` if it declines), issue the HTTP request, and dispatch on the
outcome: a transport error consults `dlg.http_error`; a non-2xx response
captures the body, parses it as JSON, consults `dlg.http_failure`, and if
terminal returns `BadRequest` on a parsed body and `Failure` otherwise; a
2xx response is decoded into the typed schema, a decode failure returning
`JsonDecodeError` without consulting the delegate.  `fuel` bounds the number
of iterations (the source loop has no bound; `none` means the fuel ran out),
`attempt` indexes the transport, and `st` accumulates the counters. -/
def doitLoop {T : Type} (auth : List String → Except String (Option String))
    (transport : String → Nat → TransportResult) (dlg : Delegate)
    (decode : Body → Except String T) (scopes : List String) (url : String) :
    Nat → Nat → Stats → Option (Except CallError T × Stats)
  | 0, _, _ => none
  | fuel + 1, attempt, st =>
    let st := { st with tokens := st.tokens + 1 }
    let tokenResult : Except String (Option String) :=
      match auth scopes with
      | .ok token => .ok token
      | .error e => dlg.token e
    match tokenResult with
    | .error e => some (.error (.missingToken e), st)
    | .ok _token =>
      let st := { st with requests := st.requests + 1 }
      match transport url attempt with
      | .transportError err =>
        match dlg.http_error err with
        | .after _d => doitLoop auth transport dlg decode scopes url fuel (attempt + 1) st
        | .abort => some (.error (.httpError err), st)
      | .response status body =>
        if statusIsSuccess status then
          match decode body with
          | .ok decoded => some (.ok decoded, st)
          | .error diag => some (.error (.jsonDecodeError body.raw diag), st)
        else
          let server_response := body.json
          match dlg.http_failure ⟨status, body⟩ server_response with
          | .after _d => doitLoop auth transport dlg decode scopes url fuel (attempt + 1) st
          | .abort =>
            match server_response with
            | some error_value => some (.error (.badRequest error_value), st)
            | none => some (.error (.failure ⟨status, body⟩), st)

/-- Hexadecimal digit for a value below 16, upper case as in URI
percent-encoding. -/
def hexDigit (n : Nat) : Char :=
  if n < 10 then Char.ofNat (48 + n) else Char.ofNat (55 + n)

/-- `%XX` escape of one byte. -/
def percentByte (b : UInt8) : List Char :=
  ['%', hexDigit (b.toNat / 16), hexDigit (b.toNat % 16)]

/-- The characters left intact by URI-Template reserved expansion: the
unreserved set `ALPHA / DIGIT / - . _ ~` together with the reserved set
(gen-delims `: / ? # [ ] @` and sub-delims). -/
def isReservedExpansionSafe (c : Char) : Bool :=
  (('A' ≤ c && c ≤ 'Z') || ('a' ≤ c && c ≤ 'z') || ('0' ≤ c && c ≤ '9'))
  || c ∈ ['-', '.', '_', '~']
  || c ∈ [':', '/', '?', '#', '[', ']', '@']
  || c ∈ ['!', '$', '&', '\'', '(', ')', '*', '+', ',', ';', '=']

/-- One character of reserved expansion: safe characters stay, every other
character has each of its UTF-8 bytes escaped. -/
def percentEncodeCharReserved (c : Char) : List Char :=
  if isReservedExpansionSafe c then [c]
  else (String.utf8EncodeChar c).flatMap percentByte

/-- Modelled from the spec: the percent-encoding used when substituting a
`{+name}` token — reserved expansion, which preserves `/` and the other
reserved characters (spec §4.2). -/
def percentEncodeReserved (s : String) : String :=
  ⟨s.data.flatMap percentEncodeCharReserved⟩

/-- Replace every (non-overlapping, leftmost-first) occurrence of `pat` in
`s` by `repl`, as `str::replace` does; an empty pattern never matches (the
generated code only ever replaces the nonempty `{+name}` tokens). -/
def listReplace (pat repl : List Char) : List Char → List Char
  | [] => []
  | c :: rest =>
    if h : pat ≠ [] ∧ pat.isPrefixOf (c :: rest) then
      repl ++ listReplace pat repl ((c :: rest).drop pat.length)
    else
      c :: listReplace pat repl rest
termination_by s => s.length
decreasing_by
  · have hlen : 0 < pat.length := List.length_pos.mpr h.1
    simp only [List.length_drop, List.length_cons]
    omega
  · simp

/-- Parameters of a call: the ordered key/value multi-map built by
`Params::push` / `Params::extend` in each `doit`. -/
abbrev Params := List (String × String)

/-- Modelled from the spec: `Params::uri_replacement` — substitute the
`find_this` token in the URL by the percent-encoded (reserved expansion when
`reserved` is set) value of the path parameter named `param_name`.  The
generated calls always pass `true`; only that form is modelled. -/
def Params.uri_replacement (ps : Params) (url : String) (param_name find_this : String)
    (_reserved : Bool) : String :=
  match ps.lookup param_name with
  | some v => ⟨listReplace find_this.data (percentEncodeReserved v).data url.data⟩
  | none => url

/-- `Params::remove_params`: drop every pair whose key was consumed by path
substitution. -/
def Params.remove_params (ps : Params) (to_remove : List String) : Params :=
  ps.filter (fun kv => !to_remove.contains kv.1)

/-- Modelled from the spec: `Params::parse_with_url` — append the remaining
parameters to the substituted URL as a standard `?k=v&...` query string. -/
def Params.parse_with_url (ps : Params) (url : String) : String :=
  url ++ "?" ++ String.intercalate "&" (ps.map (fun kv => kv.1 ++ "=" ++ kv.2))

/-- The `Scope` enum of `src/gen/chromemanagement1/src/api.rs` (lines 27–36). -/
inductive Scope where
  | chromeManagementAppdetailReadonly : Scope
  | chromeManagementReportReadonly : Scope
  | chromeManagementTelemetryReadonly : Scope

/-- `Scope::as_ref` (api.rs lines 38–46): the OAuth2 scope URL. -/
def Scope.as_ref : Scope → String
  | .chromeManagementAppdetailReadonly =>
    "https://www.googleapis.com/auth/chrome.management.appdetails.readonly"
  | .chromeManagementReportReadonly =>
    "https://www.googleapis.com/auth/chrome.management.reports.readonly"
  | .chromeManagementTelemetryReadonly =>
    "https://www.googleapis.com/auth/chrome.management.telemetry.readonly"

/-- The hub's `_base_url` as set by `ChromeManagement::new` (api.rs line 131). -/
def chromeManagementBaseUrl : String := "https://chromemanagement.googleapis.com/"

/-- Field access in a deserialized JSON object, following serde derive
semantics for all-`Option` structs: a missing field behaves exactly like an
explicit `null` (both give `None`). -/
def getField (fs : List (String × Json)) (name : String) : Json :=
  (fs.lookup name).getD Json.null

/-- serde: `Option<String>` field. -/
def decodeOptString : Json → Except String (Option String)
  | .null => .ok none
  | .str s => .ok (some s)
  | _ => .error "invalid type: expected a string"

/-- serde: `Option<bool>` field. -/
def decodeOptBool : Json → Except String (Option Bool)
  | .null => .ok none
  | .bool b => .ok (some b)
  | _ => .error "invalid type: expected a boolean"

/-- serde: `Option<i32>` field — a JSON number within the `i32` range. -/
def decodeOptI32 : Json → Except String (Option Int)
  | .null => .ok none
  | .num n =>
    if -2147483648 ≤ n ∧ n ≤ 2147483647 then .ok (some n)
    else .error "invalid value: integer out of range of i32"
  | _ => .error "invalid type: expected i32"

/-- serde_with `DisplayFromStr` on `Option<i64>`: a JSON string holding a
decimal integer within the `i64` range. -/
def decodeOptI64FromStr : Json → Except String (Option Int)
  | .null => .ok none
  | .str s =>
    match s.toInt? with
    | some n =>
      if -9223372036854775808 ≤ n ∧ n ≤ 9223372036854775807 then .ok (some n)
      else .error "invalid value: integer out of range of i64"
    | none => .error "invalid value: expected a decimal string"
  | _ => .error "invalid type: expected a string"

/-- serde: `Option<chrono::DateTime<Utc>>` field — deserialized from a JSON
string; the chrono format validation is external and modelled as accepting
any string. -/
def decodeOptDateTime : Json → Except String (Option String)
  | .null => .ok none
  | .str s => .ok (some s)
  | _ => .error "invalid type: expected an RFC 3339 string"

/-- serde: `Option<f32>` field — a JSON number (modelled integral). -/
def decodeOptF32Num : Json → Except String (Option Int)
  | .null => .ok none
  | .num n => .ok (some n)
  | _ => .error "invalid type: expected f32"

/-- serde: `Option<Vec<T>>` field. -/
def decodeOptList {α : Type} (dec : Json → Except String α) :
    Json → Except String (Option (List α))
  | .null => .ok none
  | .arr xs => (xs.mapM dec).map some
  | _ => .error "invalid type: expected a sequence"

/-- serde: an `Option` field holding a nested struct. -/
def decodeOptStruct {α : Type} (dec : Json → Except String α) :
    Json → Except String (Option α)
  | .null => .ok none
  | j => (dec j).map some

/-- serde: `HashMap<String, serde_json::Value>` (the payload of
`GoogleRpcStatus.details` entries), modelled as the field list of a JSON
object. -/
def decodeStringValueMap : Json → Except String (List (String × Json))
  | .obj fs => .ok fs
  | _ => .error "invalid type: expected a map"

/-- `GoogleChromeManagementV1AndroidAppPermission` (api.rs lines 190–195). -/
structure GoogleChromeManagementV1AndroidAppPermission where
  type_ : Option String
deriving DecidableEq

/-- serde derive for `GoogleChromeManagementV1AndroidAppPermission`
(field rename: `type`). -/
def decodeAndroidAppPermission :
    Json → Except String GoogleChromeManagementV1AndroidAppPermission
  | .obj fs => do
    let t ← decodeOptString (getField fs "type")
    .ok ⟨t⟩
  | _ => .error "invalid type: expected struct GoogleChromeManagementV1AndroidAppPermission"

/-- `GoogleChromeManagementV1AndroidAppInfo` (api.rs lines 175–179). -/
structure GoogleChromeManagementV1AndroidAppInfo where
  permissions : Option (List GoogleChromeManagementV1AndroidAppPermission)
deriving DecidableEq

/-- serde derive for `GoogleChromeManagementV1AndroidAppInfo`. -/
def decodeAndroidAppInfo : Json → Except String GoogleChromeManagementV1AndroidAppInfo
  | .obj fs => do
    let p ← decodeOptList decodeAndroidAppPermission (getField fs "permissions")
    .ok ⟨p⟩
  | _ => .error "invalid type: expected struct GoogleChromeManagementV1AndroidAppInfo"

/-- `GoogleChromeManagementV1ChromeAppPermission` (api.rs lines 575–588). -/
structure GoogleChromeManagementV1ChromeAppPermission where
  access_user_data : Option Bool
  documentation_uri : Option String
  type_ : Option String
deriving DecidableEq

/-- serde derive for `GoogleChromeManagementV1ChromeAppPermission`
(renames: `accessUserData`, `documentationUri`, `type`). -/
def decodeChromeAppPermission :
    Json → Except String GoogleChromeManagementV1ChromeAppPermission
  | .obj fs => do
    let a ← decodeOptBool (getField fs "accessUserData")
    let d ← decodeOptString (getField fs "documentationUri")
    let t ← decodeOptString (getField fs "type")
    .ok ⟨a, d, t⟩
  | _ => .error "invalid type: expected struct GoogleChromeManagementV1ChromeAppPermission"

/-- `GoogleChromeManagementV1ChromeAppSiteAccess` (api.rs lines 640–645). -/
structure GoogleChromeManagementV1ChromeAppSiteAccess where
  host_match : Option String
deriving DecidableEq

/-- serde derive for `GoogleChromeManagementV1ChromeAppSiteAccess`
(rename: `hostMatch`). -/
def decodeChromeAppSiteAccess :
    Json → Except String GoogleChromeManagementV1ChromeAppSiteAccess
  | .obj fs => do
    let h ← decodeOptString (getField fs "hostMatch")
    .ok ⟨h⟩
  | _ => .error "invalid type: expected struct GoogleChromeManagementV1ChromeAppSiteAccess"

/-- `GoogleChromeManagementV1ChromeAppInfo` (api.rs lines 520–564). -/
structure GoogleChromeManagementV1ChromeAppInfo where
  google_owned : Option Bool
  is_cws_hosted : Option Bool
  is_extension_policy_supported : Option Bool
  is_kiosk_only : Option Bool
  is_theme : Option Bool
  kiosk_enabled : Option Bool
  min_user_count : Option Int
  permissions : Option (List GoogleChromeManagementV1ChromeAppPermission)
  site_access : Option (List GoogleChromeManagementV1ChromeAppSiteAccess)
  support_enabled : Option Bool
  type_ : Option String
deriving DecidableEq

/-- serde derive for `GoogleChromeManagementV1ChromeAppInfo`. -/
def decodeChromeAppInfo : Json → Except String GoogleChromeManagementV1ChromeAppInfo
  | .obj fs => do
    let go ← decodeOptBool (getField fs "googleOwned")
    let cws ← decodeOptBool (getField fs "isCwsHosted")
    let eps ← decodeOptBool (getField fs "isExtensionPolicySupported")
    let ko ← decodeOptBool (getField fs "isKioskOnly")
    let th ← decodeOptBool (getField fs "isTheme")
    let ke ← decodeOptBool (getField fs "kioskEnabled")
    let mu ← decodeOptI32 (getField fs "minUserCount")
    let pe ← decodeOptList decodeChromeAppPermission (getField fs "permissions")
    let sa ← decodeOptList decodeChromeAppSiteAccess (getField fs "siteAccess")
    let se ← decodeOptBool (getField fs "supportEnabled")
    let ty ← decodeOptString (getField fs "type")
    .ok ⟨go, cws, eps, ko, th, ke, mu, pe, sa, se, ty⟩
  | _ => .error "invalid type: expected struct GoogleChromeManagementV1ChromeAppInfo"

/-- `GoogleRpcStatus` (api.rs lines 1913–1923). -/
structure GoogleRpcStatus where
  code : Option Int
  details : Option (List (List (String × Json)))
  message : Option String

/-- serde derive for `GoogleRpcStatus`. -/
def decodeRpcStatus : Json → Except String GoogleRpcStatus
  | .obj fs => do
    let c ← decodeOptI32 (getField fs "code")
    let d ← decodeOptList decodeStringValueMap (getField fs "details")
    let m ← decodeOptString (getField fs "message")
    .ok ⟨c, d, m⟩
  | _ => .error "invalid type: expected struct GoogleRpcStatus"

/-- `GoogleChromeManagementV1AppDetails` (api.rs lines 213–288), the response
schema of `CustomerAppAndroidGetCall`.  `chrono::DateTime` fields are
modelled as their RFC 3339 strings and the `f32` field as an integral JSON
number (see the header). -/
structure GoogleChromeManagementV1AppDetails where
  android_app_info : Option GoogleChromeManagementV1AndroidAppInfo
  app_id : Option String
  chrome_app_info : Option GoogleChromeManagementV1ChromeAppInfo
  description : Option String
  detail_uri : Option String
  display_name : Option String
  first_publish_time : Option String
  homepage_uri : Option String
  icon_uri : Option String
  is_paid_app : Option Bool
  latest_publish_time : Option String
  name : Option String
  privacy_policy_uri : Option String
  publisher : Option String
  review_number : Option Int
  review_rating : Option Int
  revision_id : Option String
  service_error : Option GoogleRpcStatus
  type_ : Option String

/-- serde derive for `GoogleChromeManagementV1AppDetails`, with the
`#[serde(rename)]` camel-case field names of the source and the serde_with
`DisplayFromStr` treatment of `reviewNumber`. -/
def decodeAppDetails : Json → Except String GoogleChromeManagementV1AppDetails
  | .obj fs => do
    let aai ← decodeOptStruct decodeAndroidAppInfo (getField fs "androidAppInfo")
    let aid ← decodeOptString (getField fs "appId")
    let cai ← decodeOptStruct decodeChromeAppInfo (getField fs "chromeAppInfo")
    let de ← decodeOptString (getField fs "description")
    let du ← decodeOptString (getField fs "detailUri")
    let dn ← decodeOptString (getField fs "displayName")
    let fpt ← decodeOptDateTime (getField fs "firstPublishTime")
    let hu ← decodeOptString (getField fs "homepageUri")
    let iu ← decodeOptString (getField fs "iconUri")
    let ipa ← decodeOptBool (getField fs "isPaidApp")
    let lpt ← decodeOptDateTime (getField fs "latestPublishTime")
    let na ← decodeOptString (getField fs "name")
    let ppu ← decodeOptString (getField fs "privacyPolicyUri")
    let pu ← decodeOptString (getField fs "publisher")
    let rn ← decodeOptI64FromStr (getField fs "reviewNumber")
    let rr ← decodeOptF32Num (getField fs "reviewRating")
    let ri ← decodeOptString (getField fs "revisionId")
    let se ← decodeOptStruct decodeRpcStatus (getField fs "serviceError")
    let ty ← decodeOptString (getField fs "type")
    .ok ⟨aai, aid, cai, de, du, dn, fpt, hu, iu, ipa, lpt, na, ppu, pu, rn, rr, ri, se, ty⟩
  | _ => .error "invalid type: expected struct GoogleChromeManagementV1AppDetails"

/-- `GoogleChromeManagementV1BrowserVersion` (api.rs lines 491–509). -/
structure GoogleChromeManagementV1BrowserVersion where
  channel : Option String
  count : Option Int
  device_os_version : Option String
  system : Option String
  version : Option String
deriving DecidableEq

/-- serde derive for `GoogleChromeManagementV1BrowserVersion` (rename:
`deviceOsVersion`; `count` is serde_with `DisplayFromStr` on `i64`). -/
def decodeBrowserVersion : Json → Except String GoogleChromeManagementV1BrowserVersion
  | .obj fs => do
    let ch ← decodeOptString (getField fs "channel")
    let co ← decodeOptI64FromStr (getField fs "count")
    let dov ← decodeOptString (getField fs "deviceOsVersion")
    let sy ← decodeOptString (getField fs "system")
    let ve ← decodeOptString (getField fs "version")
    .ok ⟨ch, co, dov, sy, ve⟩
  | _ => .error "invalid type: expected struct GoogleChromeManagementV1BrowserVersion"

/-- `GoogleChromeManagementV1CountChromeVersionsResponse` (api.rs lines
786–799), the response schema of `CustomerReportCountChromeVersionCall`. -/
structure GoogleChromeManagementV1CountChromeVersionsResponse where
  browser_versions : Option (List GoogleChromeManagementV1BrowserVersion)
  next_page_token : Option String
  total_size : Option Int
deriving DecidableEq

/-- serde derive for `GoogleChromeManagementV1CountChromeVersionsResponse`
(renames: `browserVersions`, `nextPageToken`, `totalSize`). -/
def decodeCountChromeVersionsResponse :
    Json → Except String GoogleChromeManagementV1CountChromeVersionsResponse
  | .obj fs => do
    let bv ← decodeOptList decodeBrowserVersion (getField fs "browserVersions")
    let npt ← decodeOptString (getField fs "nextPageToken")
    let ts ← decodeOptI32 (getField fs "totalSize")
    .ok ⟨bv, npt, ts⟩
  | _ =>
    .error "invalid type: expected struct GoogleChromeManagementV1CountChromeVersionsResponse"

/-- `json::from_str::<T>` on a response body: the typed decode fails exactly
when the body is not valid JSON at all or the JSON does not fit the schema. -/
def decodeBodyVia {α : Type} (dec : Json → Except String α) (b : Body) :
    Except String α :=
  match b.json with
  | some j => dec j
  | none => .error "EOF while parsing a value"

/-- The builder state of `CustomerAppAndroidGetCall` (api.rs lines
2288–2296): the hub's base URL, the required `name` path parameter, the
additional-parameter map (`HashMap<String, String>`, modelled as its entry
list with pairwise-distinct keys maintained by `param`) and the scope set
(`BTreeSet<String>`, modelled as its sorted element list).  The delegate is
passed to `doit` separately. -/
structure CustomerAppAndroidGetCall where
  base_url : String
  _name : String
  _additional_params : List (String × String)
  _scopes : List String

/-- The statically-known parameter names checked for clashes by
`CustomerAppAndroidGetCall::doit` (api.rs line 2321). -/
def androidGetKnownFields : List String := ["alt", "name"]

/-- The parameter assembly of `CustomerAppAndroidGetCall::doit`
(api.rs lines 2328–2333): push `name`, extend with the additional
parameters, push `alt=json`. -/
def CustomerAppAndroidGetCall.params (c : CustomerAppAndroidGetCall) : Params :=
  ("name", c._name) :: (c._additional_params ++ [("alt", "json")])

/-- The scope-defaulting step of `CustomerAppAndroidGetCall::doit`
(api.rs lines 2335–2337): an empty scope set gets
`Scope::ChromeManagementAppdetailReadonly` inserted. -/
def CustomerAppAndroidGetCall.effectiveScopes (c : CustomerAppAndroidGetCall) :
    List String :=
  if c._scopes.isEmpty then [Scope.chromeManagementAppdetailReadonly.as_ref]
  else c._scopes

/-- The URL construction of `CustomerAppAndroidGetCall::doit`
(api.rs lines 2334–2347): base URL plus the relative template
`"v1/{+name}"`, reserved-expansion substitution of `{+name}`, removal of the
consumed `name` parameter, and query-string serialization. -/
def CustomerAppAndroidGetCall.requestUrl (c : CustomerAppAndroidGetCall) : String :=
  let url := c.base_url ++ "v1/\x7b+name\x7d"
  let url := c.params.uri_replacement url "name" "\x7b+name\x7d" true
  let qparams := c.params.remove_params ["name"]
  qparams.parse_with_url url

/-- `CustomerAppAndroidGetCall::doit` (api.rs lines 2310–2431): install the
default delegate when none was supplied, fail fast with `FieldClash` when an
additional-parameter key equals a statically-known field name (issuing no
request), otherwise build the URL and run the retry loop with the
`GoogleChromeManagementV1AppDetails` decoder. -/
def CustomerAppAndroidGetCall.doit (c : CustomerAppAndroidGetCall)
    (auth : List String → Except String (Option String))
    (transport : String → Nat → TransportResult)
    (delegate : Option Delegate) (fuel : Nat) :
    Option (Except CallError GoogleChromeManagementV1AppDetails × Stats) :=
  let dlg := delegate.getD DefaultDelegate
  match androidGetKnownFields.find?
      (fun field => c._additional_params.any (fun kv => kv.1 = field)) with
  | some field => some (.error (.fieldClash field), ⟨0, 0⟩)
  | none =>
    doitLoop auth transport dlg (decodeBodyVia decodeAppDetails)
      c.effectiveScopes c.requestUrl fuel 0 ⟨0, 0⟩

/-- The builder state of `CustomerReportCountChromeVersionCall` (api.rs
lines 4251–4263): the required `customer` path parameter plus the optional
`pageToken` / `pageSize` / `orgUnitId` / `filter` query parameters. -/
structure CustomerReportCountChromeVersionCall where
  base_url : String
  _customer : String
  _page_token : Option String
  _page_size : Option Int
  _org_unit_id : Option String
  _filter : Option String
  _additional_params : List (String × String)
  _scopes : List String

/-- The statically-known parameter names checked for clashes by
`CustomerReportCountChromeVersionCall::doit` (api.rs line 4288). -/
def countChromeVersionsKnownFields : List String :=
  ["alt", "customer", "pageToken", "pageSize", "orgUnitId", "filter"]

/-- The parameter assembly of `CustomerReportCountChromeVersionCall::doit`
(api.rs lines 4295–4312): push `customer`, push each optional parameter that
is set (`pageSize` via `to_string`), extend with the additional parameters,
push `alt=json`. -/
def CustomerReportCountChromeVersionCall.params
    (c : CustomerReportCountChromeVersionCall) : Params :=
  ("customer", c._customer) ::
    ((match c._page_token with | some v => [("pageToken", v)] | none => [])
      ++ (match c._page_size with | some v => [("pageSize", toString v)] | none => [])
      ++ (match c._org_unit_id with | some v => [("orgUnitId", v)] | none => [])
      ++ (match c._filter with | some v => [("filter", v)] | none => [])
      ++ c._additional_params ++ [("alt", "json")])

/-- The scope-defaulting step of `CustomerReportCountChromeVersionCall::doit`
(api.rs lines 4314–4316). -/
def CustomerReportCountChromeVersionCall.effectiveScopes
    (c : CustomerReportCountChromeVersionCall) : List String :=
  if c._scopes.isEmpty then [Scope.chromeManagementReportReadonly.as_ref]
  else c._scopes

/-- The URL construction of `CustomerReportCountChromeVersionCall::doit`
(api.rs lines 4313–4326): template `"v1/{+customer}/reports:countChromeVersions"`. -/
def CustomerReportCountChromeVersionCall.requestUrl
    (c : CustomerReportCountChromeVersionCall) : String :=
  let url := c.base_url ++ "v1/\x7b+customer\x7d/reports:countChromeVersions"
  let url := c.params.uri_replacement url "customer" "\x7b+customer\x7d" true
  let qparams := c.params.remove_params ["customer"]
  qparams.parse_with_url url

/-- `CustomerReportCountChromeVersionCall::doit` (api.rs lines 4277–4410). -/
def CustomerReportCountChromeVersionCall.doit
    (c : CustomerReportCountChromeVersionCall)
    (auth : List String → Except String (Option String))
    (transport : String → Nat → TransportResult)
    (delegate : Option Delegate) (fuel : Nat) :
    Option (Except CallError GoogleChromeManagementV1CountChromeVersionsResponse × Stats) :=
  let dlg := delegate.getD DefaultDelegate
  match countChromeVersionsKnownFields.find?
      (fun field => c._additional_params.any (fun kv => kv.1 = field)) with
  | some field => some (.error (.fieldClash field), ⟨0, 0⟩)
  | none =>
    doitLoop auth transport dlg (decodeBodyVia decodeCountChromeVersionsResponse)
      c.effectiveScopes c.requestUrl fuel 0 ⟨0, 0⟩

/-- `GoogleTypeDate` (api.rs lines 1934–1944): a whole or partial calendar
date; every field is `Option<i32>`, with `0` the documented "unspecified"
sentinel distinct from an absent field. -/
structure GoogleTypeDate where
  day : Option Int
  month : Option Int
  year : Option Int
deriving DecidableEq

/-- serde serialization of one `Option<i32>` field: `None` serializes as
JSON `null`, `Some n` as the number. -/
def optIntToJson : Option Int → Json
  | none => .null
  | some n => .num n

/-- The derived `Serialize` for `GoogleTypeDate`: a JSON object with the
fields in declaration order. -/
def GoogleTypeDate.toJson (d : GoogleTypeDate) : Json :=
  .obj [("day", optIntToJson d.day), ("month", optIntToJson d.month),
        ("year", optIntToJson d.year)]

/-- The derived `Deserialize` for `GoogleTypeDate`. -/
def GoogleTypeDate.fromJson : Json → Except String GoogleTypeDate
  | .obj fs => do
    let d ← decodeOptI32 (getField fs "day")
    let m ← decodeOptI32 (getField fs "month")
    let y ← decodeOptI32 (getField fs "year")
    .ok ⟨d, m, y⟩
  | _ => .error "invalid type: expected struct GoogleTypeDate"

/-- An optional `i32` value is representable: within the `i32` range. -/
def i32InRange : Option Int → Prop
  | none => True
  | some n => -2147483648 ≤ n ∧ n ≤ 2147483647

instance (v : Option Int) : Decidable (i32InRange v) := by
  cases v <;> simp [i32InRange] <;> infer_instance

mutual

/-- Modelled from the spec: `remove_json_null_values` of `google_clis_common`
— recursively remove every null-valued object field from a JSON value before
it is pretty-printed by the CLI (null fields are dropped; the remaining
values are cleaned recursively, descending through arrays). -/
def removeJsonNullValues : Json → Json
  | .null => .null
  | .bool b => .bool b
  | .num n => .num n
  | .str s => .str s
  | .arr xs => .arr (removeJsonNullValuesList xs)
  | .obj fs => .obj (removeJsonNullValuesFields fs)

/-- `remove_json_null_values` on the elements of an array. -/
def removeJsonNullValuesList : List Json → List Json
  | [] => []
  | x :: xs => removeJsonNullValues x :: removeJsonNullValuesList xs

/-- `remove_json_null_values` on the fields of an object: null fields are
removed, the others cleaned recursively. -/
def removeJsonNullValuesFields : List (String × Json) → List (String × Json)
  | [] => []
  | (k, v) :: rest =>
    match v with
    | .null => removeJsonNullValuesFields rest
    | v => (k, removeJsonNullValues v) :: removeJsonNullValuesFields rest

end

mutual

/-- No object field anywhere in the value is null. -/
def noNullField : Json → Bool
  | .null => true
  | .bool _ => true
  | .num _ => true
  | .str _ => true
  | .arr xs => noNullFieldList xs
  | .obj fs => noNullFieldFields fs

/-- `noNullField` on array elements. -/
def noNullFieldList : List Json → Bool
  | [] => true
  | x :: xs => noNullField x && noNullFieldList xs

/-- `noNullField` on object fields: the value is not null and is itself
clean. -/
def noNullFieldFields : List (String × Json) → Bool
  | [] => true
  | (_, v) :: rest =>
    (match v with | .null => false | _ => true) && noNullField v && noNullFieldFields rest

end

/-- The success path of every CLI method handler (e.g.
`Engine::_cse_list` in `src/gen/customsearch1-cli/src/main.rs` lines
185–191 and `Engine::_billing_accounts_budgets_create` in
`src/gen/billingbudgets1_beta1-cli/src/main.rs` lines 148–155): serialize
the typed response to a JSON value, strip null values, pretty-print the
result to the selected output stream. -/
def cliEmitJson (output_schema : Json) : Json :=
  removeJsonNullValues output_schema

/-- The top-level global arguments registered by the billing-budgets CLI's
`main` (`src/gen/billingbudgets1_beta1-cli/src/main.rs` lines 662–676):
`url` (`--scope`), `folder` (`--config-dir`) and `debug` (`--debug`). -/
def billingCliGlobalArgs : List String := ["url", "folder", "debug"]

/-- The top-level global arguments registered by the customsearch CLI's
`main` (`src/gen/customsearch1-cli/src/main.rs` lines 473–482): `folder`
(`--config-dir`) and `debug` (`--debug`). -/
def customsearchCliGlobalArgs : List String := ["folder", "debug"]

/-- clap v2 `ArgMatches::is_present`, modelled on the list of argument names
present in the parsed invocation: a name not among the registered arguments
is simply never present. -/
def isPresent (present_args : List String) (name : String) : Bool :=
  present_args.contains name

/-- The debug-mode computation of both CLI `main`s
(`customsearch1-cli/src/main.rs` line 527, `billingbudgets1_beta1-cli`
line 721): `let debug = matches.is_present("adebug");` — note the queried
name `"adebug"`. -/
def mainDebugFlag (present_args : List String) : Bool :=
  isPresent present_args "adebug"

/-- How a terminal API error is rendered to standard error by the CLI
`main` (`customsearch1-cli` lines 546–552, `billingbudgets1_beta1-cli`
lines 740–746): the verbose `{:#?}` form when `debug` is set, the plain
`{}` display form otherwise. -/
inductive ErrorRendering where
  | displayForm : ErrorRendering
  | debugForm : ErrorRendering
deriving DecidableEq

/-- The `DoitError::ApiError` arm of `main`'s error handling. -/
def renderApiError (debug : Bool) : ErrorRendering :=
  if debug then .debugForm else .displayForm

/-- The possible outcomes reaching the tail of `main`
(`customsearch1-cli/src/main.rs` lines 534–558, `billingbudgets1_beta1-cli`
lines 728–753): `Engine::new` failed with an `InvalidOptionsError` carrying
an exit code, or `doit` failed with an I/O or API error, or everything
succeeded. -/
inductive CliOutcome where
  | invalidOptions (exit_code : Int) : CliOutcome
  | doitIoError (path : String) : CliOutcome
  | doitApiError : CliOutcome
  | success : CliOutcome
deriving DecidableEq

/-- The process exit status computed by `main`: `exit_status` starts at 0,
an `Engine::new` error overwrites it with the error's exit code, a `doit`
error with 1, and a successful run leaves it at 0. -/
def mainExitStatus : CliOutcome → Int
  | .invalidOptions exit_code => exit_code
  | .doitIoError _ => 1
  | .doitApiError => 1
  | .success => 0

/-- Absence of any (possibly truncated) start of the token `pat` inside `A`:
no occurrence of `pat` can begin at a position of `A`, whatever text follows
`A`.  Decidable, so concrete template prefixes can be checked by `decide`. -/
def noTokenWithin (pat A : List Char) : Prop :=
  ∀ i, i < A.length → ¬ (pat.take (A.length - i)).isPrefixOf (A.drop i)

instance (pat A : List Char) : Decidable (noTokenWithin pat A) := by
  unfold noTokenWithin; infer_instance

/-- The all-`None` `GoogleChromeManagementV1AppDetails`, i.e. what the empty
JSON object decodes to (serde `Default`). -/
def emptyAppDetails : GoogleChromeManagementV1AppDetails :=
  ⟨none, none, none, none, none, none, none, none, none, none, none, none, none,
   none, none, none, none, none, none⟩

/-- A call whose scope set has been cleared (`clear_scopes`), as in the
API-key scenario of `clear_scopes`' documentation. -/
def clearedScopesCall : CustomerAppAndroidGetCall :=
  ⟨chromeManagementBaseUrl, "customers/my_customer/apps/android/com.foo", [], []⟩

/-- The retry loop can produce every error except `FieldClash`: that error
only arises from the pre-request validation. -/
theorem doitLoop_no_fieldClash {T : Type} (auth : List String → Except String (Option String))
    (transport : String → Nat → TransportResult) (dlg : Delegate)
    (decode : Body → Except String T) (scopes : List String) (url : String) :
    ∀ (fuel attempt : Nat) (st : Stats) (r : Except CallError T) (st' : Stats) (f : String),
      doitLoop auth transport dlg decode scopes url fuel attempt st = some (r, st') →
      r ≠ .error (.fieldClash f) := by
  intro fuel
  induction fuel with
  | zero =>
    intro attempt st r st' f h
    simp [doitLoop] at h
  | succ n ih =>
    intro attempt st r st' f h
    simp only [doitLoop] at h
    split at h
    · simp only [Option.some_inj, Prod.mk.injEq] at h
      rintro rfl
      simp at h
    · split at h
      · split at h
        · exact ih _ _ _ _ _ h
        · simp only [Option.some_inj, Prod.mk.injEq] at h
          rintro rfl
          simp at h
      · split at h
        · split at h
          · simp only [Option.some_inj, Prod.mk.injEq] at h
            rintro rfl
            simp at h
          · simp only [Option.some_inj, Prod.mk.injEq] at h
            rintro rfl
            simp at h
        · split at h
          · exact ih _ _ _ _ _ h
          · split at h
            · simp only [Option.some_inj, Prod.mk.injEq] at h
              rintro rfl
              simp at h
            · simp only [Option.some_inj, Prod.mk.injEq] at h
              rintro rfl
              simp at h

/-- Claim C1: for every call builder (both embedded ones) and every
additional-parameter map, if some key of the map equals a statically-known
parameter name of the operation then `doit` returns a `FieldClash` error
naming a colliding key while issuing zero HTTP requests and zero token
acquisitions; and if no key collides, `doit` never returns a `FieldClash`
error. -/
theorem doit_field_clash :
    (∀ (c : CustomerAppAndroidGetCall) (auth : List String → Except String (Option String))
       (transport : String → Nat → TransportResult) (delegate : Option Delegate) (fuel : Nat),
      ((∃ k ∈ androidGetKnownFields, c._additional_params.any (fun kv => kv.1 = k) = true) →
        ∃ f ∈ androidGetKnownFields, c._additional_params.any (fun kv => kv.1 = f) = true ∧
          c.doit auth transport delegate fuel = some (.error (.fieldClash f), ⟨0, 0⟩))
      ∧ ((¬ ∃ k ∈ androidGetKnownFields, c._additional_params.any (fun kv => kv.1 = k) = true) →
          ∀ (r : Except CallError GoogleChromeManagementV1AppDetails) (st : Stats) (f : String),
            c.doit auth transport delegate fuel = some (r, st) → r ≠ .error (.fieldClash f)))
    ∧ (∀ (c : CustomerReportCountChromeVersionCall) (auth : List String → Except String (Option String))
       (transport : String → Nat → TransportResult) (delegate : Option Delegate) (fuel : Nat),
      ((∃ k ∈ countChromeVersionsKnownFields, c._additional_params.any (fun kv => kv.1 = k) = true) →
        ∃ f ∈ countChromeVersionsKnownFields, c._additional_params.any (fun kv => kv.1 = f) = true ∧
          c.doit auth transport delegate fuel = some (.error (.fieldClash f), ⟨0, 0⟩))
      ∧ ((¬ ∃ k ∈ countChromeVersionsKnownFields, c._additional_params.any (fun kv => kv.1 = k) = true) →
          ∀ (r : Except CallError GoogleChromeManagementV1CountChromeVersionsResponse) (st : Stats) (f : String),
            c.doit auth transport delegate fuel = some (r, st) → r ≠ .error (.fieldClash f))) := by
  constructor
  · intro c auth transport delegate fuel
    constructor
    · intro hclash
      have hsome : (androidGetKnownFields.find?
          (fun field => c._additional_params.any (fun kv => kv.1 = field))).isSome := by
        rw [List.find?_isSome]
        obtain ⟨k, hk, hany⟩ := hclash
        exact ⟨k, hk, hany⟩
      obtain ⟨f, hf⟩ := Option.isSome_iff_exists.mp hsome
      refine ⟨f, List.mem_of_find?_eq_some hf, by simpa using List.find?_some hf, ?_⟩
      simp only [CustomerAppAndroidGetCall.doit, hf]
    · intro hnone r st f h
      have hfind : androidGetKnownFields.find?
          (fun field => c._additional_params.any (fun kv => kv.1 = field)) = none := by
        rw [List.find?_eq_none]
        intro x hx
        simp only [Bool.not_eq_true]
        by_contra hv
        exact hnone ⟨x, hx, by simpa using hv⟩
      rw [CustomerAppAndroidGetCall.doit, hfind] at h
      exact doitLoop_no_fieldClash _ _ _ _ _ _ _ _ _ _ _ _ h
  · intro c auth transport delegate fuel
    constructor
    · intro hclash
      have hsome : (countChromeVersionsKnownFields.find?
          (fun field => c._additional_params.any (fun kv => kv.1 = field))).isSome := by
        rw [List.find?_isSome]
        obtain ⟨k, hk, hany⟩ := hclash
        exact ⟨k, hk, hany⟩
      obtain ⟨f, hf⟩ := Option.isSome_iff_exists.mp hsome
      refine ⟨f, List.mem_of_find?_eq_some hf, by simpa using List.find?_some hf, ?_⟩
      simp only [CustomerReportCountChromeVersionCall.doit, hf]
    · intro hnone r st f h
      have hfind : countChromeVersionsKnownFields.find?
          (fun field => c._additional_params.any (fun kv => kv.1 = field)) = none := by
        rw [List.find?_eq_none]
        intro x hx
        simp only [Bool.not_eq_true]
        by_contra hv
        exact hnone ⟨x, hx, by simpa using hv⟩
      rw [CustomerReportCountChromeVersionCall.doit, hfind] at h
      exact doitLoop_no_fieldClash _ _ _ _ _ _ _ _ _ _ _ _ h

/-- Witness for claim C1 at a concrete call whose additional-parameter map
contains the statically-known key `alt`. -/
theorem doit_field_clash_witness :
    ∃ f ∈ androidGetKnownFields,
      ([("alt", "proto")].any (fun kv => kv.1 = f) = true) ∧
      (⟨chromeManagementBaseUrl, "n", [("alt", "proto")], []⟩ :
          CustomerAppAndroidGetCall).doit
        (fun _ => .ok none) (fun _ _ => .transportError "e") none 3
        = some (.error (.fieldClash f), ⟨0, 0⟩) :=
  (doit_field_clash.1 ⟨chromeManagementBaseUrl, "n", [("alt", "proto")], []⟩
    (fun _ => .ok none) (fun _ _ => .transportError "e") none 3).1
    ⟨"alt", by decide, by decide⟩

/-- A transport that fails `n` times from the current attempt on and then
answers a decodable 2xx response drives the loop to success after exactly
`n + 1` further iterations, each acquiring a token and issuing one request,
provided the delegate always answers retry-after. -/
theorem doitLoop_transient_then_success {T : Type}
    (auth : List String → Except String (Option String))
    (transport : String → Nat → TransportResult) (dlg : Delegate)
    (decode : Body → Except String T) (scopes : List String) (url : String)
    (tok : Option String) (hauth : auth scopes = .ok tok)
    (hretry : ∀ e, ∃ d, dlg.http_error e = .after d)
    (good : Body) (v : T) (hdec : decode good = .ok v)
    (status : Nat) (hst : statusIsSuccess status = true) :
    ∀ (n attempt : Nat) (st : Stats),
      (∀ i, i < n → ∃ e, transport url (attempt + i) = .transportError e) →
      transport url (attempt + n) = .response status good →
      doitLoop auth transport dlg decode scopes url (n + 1) attempt st
        = some (.ok v, ⟨st.tokens + n + 1, st.requests + n + 1⟩) := by
  intro n
  induction n with
  | zero =>
    intro attempt st hfail hsucc
    simp only [doitLoop, hauth]
    rw [show attempt + 0 = attempt from rfl] at hsucc
    rw [hsucc]
    simp [hst, hdec]
  | succ m ih =>
    intro attempt st hfail hsucc
    obtain ⟨e, he⟩ := hfail 0 (Nat.succ_pos m)
    rw [Nat.add_zero] at he
    obtain ⟨d, hd⟩ := hretry e
    rw [doitLoop.eq_2]
    simp only [hauth, he, hd]
    have := ih (attempt + 1) ⟨st.tokens + 1, st.requests + 1⟩
      (fun i hi => by
        have := hfail (i + 1) (Nat.succ_lt_succ hi)
        rwa [show attempt + 1 + i = attempt + (i + 1) by omega])
      (by rwa [show attempt + 1 + m = attempt + (m + 1) by omega])
    rw [this]
    simp only [Option.some_inj, Prod.mk.injEq, Stats.mk.injEq]
    exact ⟨trivial, by omega, by omega⟩

/-- Claim C2: with a delegate whose retry hooks always answer retry-after and
a transport failing transiently on the first `N` attempts, `doit` succeeds
after exactly `N + 1` HTTP requests, acquiring a token before each of them;
with the default delegate (no delegate supplied), `doit` is terminal after
exactly one HTTP request, both on a transport error and on a retryable
non-2xx response. -/
theorem doit_retry_policy :
    ∀ (N : Nat) (c : CustomerAppAndroidGetCall)
      (auth : List String → Except String (Option String)) (tok : Option String),
      c._additional_params = [] →
      auth c.effectiveScopes = .ok tok →
      (c.doit auth
          (fun _ i => if i < N then .transportError "connection refused"
                      else .response 200 ⟨"\x7b\x7d", some (.obj [])⟩)
          (some ⟨fun e => .error e, fun _ => .after 1, fun _ _ => .after 1⟩) (N + 1)
        = some (.ok emptyAppDetails, ⟨N + 1, N + 1⟩))
      ∧ (∀ (e : String) (fuel : Nat),
          c.doit auth (fun _ _ => .transportError e) none (fuel + 1)
            = some (.error (.httpError e), ⟨1, 1⟩))
      ∧ (∀ (status : Nat) (body : Body) (j : Json) (fuel : Nat),
          statusIsSuccess status = false → body.json = some j →
          c.doit auth (fun _ _ => .response status body) none (fuel + 1)
            = some (.error (.badRequest j), ⟨1, 1⟩)) := by
  intro N c auth tok hparams hauth
  have hfind : androidGetKnownFields.find?
      (fun field => c._additional_params.any (fun kv => kv.1 = field)) = none := by
    rw [hparams]; decide
  refine ⟨?_, ?_, ?_⟩
  · rw [CustomerAppAndroidGetCall.doit, hfind]
    simp only [Option.getD]
    have := doitLoop_transient_then_success auth
      (fun _ i => if i < N then .transportError "connection refused"
                  else .response 200 ⟨"\x7b\x7d", some (.obj [])⟩)
      ⟨fun e => .error e, fun _ => .after 1, fun _ _ => .after 1⟩
      (decodeBodyVia decodeAppDetails) c.effectiveScopes c.requestUrl tok hauth
      (fun e => ⟨1, rfl⟩) ⟨"\x7b\x7d", some (.obj [])⟩ emptyAppDetails rfl 200 rfl
      N 0 ⟨0, 0⟩
      (fun i hi => ⟨"connection refused", by simp [Nat.zero_add, if_pos hi]⟩)
      (by simp)
    simpa using this
  · intro e fuel
    rw [CustomerAppAndroidGetCall.doit, hfind]
    simp only [Option.getD]
    rw [doitLoop.eq_2]
    simp [hauth, DefaultDelegate]
  · intro status body j fuel hst hj
    rw [CustomerAppAndroidGetCall.doit, hfind]
    simp only [Option.getD]
    rw [doitLoop.eq_2]
    simp [hauth, hst, hj, DefaultDelegate]

/-- Witness for claim C2: two transient failures then success yields exactly
three requests with the always-retrying delegate; the default delegate is
terminal after one request. -/
theorem doit_retry_policy_witness :
    ((⟨chromeManagementBaseUrl, "customers/c", [], []⟩ :
        CustomerAppAndroidGetCall).doit (fun _ => .ok (some "tok"))
      (fun _ i => if i < 2 then .transportError "connection refused"
                  else .response 200 ⟨"\x7b\x7d", some (.obj [])⟩)
      (some ⟨fun e => .error e, fun _ => .after 1, fun _ _ => .after 1⟩) 3
      = some (.ok emptyAppDetails, ⟨3, 3⟩))
    ∧ ((⟨chromeManagementBaseUrl, "customers/c", [], []⟩ :
        CustomerAppAndroidGetCall).doit (fun _ => .ok (some "tok"))
      (fun _ _ => .transportError "connection refused") none 1
      = some (.error (.httpError "connection refused"), ⟨1, 1⟩))
    ∧ ((⟨chromeManagementBaseUrl, "customers/c", [], []⟩ :
        CustomerAppAndroidGetCall).doit (fun _ => .ok (some "tok"))
      (fun _ _ => .response 503 ⟨"busy", some (.str "busy")⟩) none 1
      = some (.error (.badRequest (.str "busy")), ⟨1, 1⟩)) :=
  ⟨(doit_retry_policy 2 ⟨chromeManagementBaseUrl, "customers/c", [], []⟩
      (fun _ => .ok (some "tok")) (some "tok") rfl rfl).1,
   (doit_retry_policy 2 ⟨chromeManagementBaseUrl, "customers/c", [], []⟩
      (fun _ => .ok (some "tok")) (some "tok") rfl rfl).2.1 "connection refused" 0,
   (doit_retry_policy 2 ⟨chromeManagementBaseUrl, "customers/c", [], []⟩
      (fun _ => .ok (some "tok")) (some "tok") rfl rfl).2.2 503
      ⟨"busy", some (.str "busy")⟩ (.str "busy") 0 rfl rfl⟩

/-- Replacement on the empty string is the empty string. -/
theorem listReplace_nil (pat repl : List Char) : listReplace pat repl [] = [] := by
  simp [listReplace]

/-- A non-matching head character is copied verbatim. -/
theorem listReplace_cons_neg (pat repl : List Char) (c : Char) (s : List Char)
    (h : ¬ (pat ≠ [] ∧ pat.isPrefixOf (c :: s))) :
    listReplace pat repl (c :: s) = c :: listReplace pat repl s := by
  simp only [listReplace]
  rw [dif_neg h]

/-- An occurrence of the pattern at the head is replaced. -/
theorem listReplace_match (pat repl : List Char) (hne : pat ≠ []) (b : List Char) :
    listReplace pat repl (pat ++ b) = repl ++ listReplace pat repl b := by
  cases pat with
  | nil => exact absurd rfl hne
  | cons p ps =>
    rw [List.cons_append]
    simp only [listReplace]
    rw [dif_pos ⟨hne, by
      rw [List.isPrefixOf_iff_prefix, ← List.cons_append]
      exact List.prefix_append _ _⟩]
    rw [← List.cons_append, List.drop_left]

/-- A prefix of an append restricts to a prefix of the left part. -/
theorem prefix_take_of_prefix_append {p x y : List Char} (h : p <+: x ++ y) :
    p.take x.length <+: x := by
  obtain ⟨t, ht⟩ := h
  have : p.take x.length <+: (x ++ y).take x.length := by
    rw [← ht, List.take_append_eq_append_take]
    exact List.prefix_append _ _
  rwa [List.take_left] at this

/-- A segment in which the pattern cannot start is copied verbatim. -/
theorem listReplace_skip (pat repl : List Char) :
    ∀ (A rest : List Char), noTokenWithin pat A →
      listReplace pat repl (A ++ rest) = A ++ listReplace pat repl rest := by
  intro A
  induction A with
  | nil => intro rest _; simp
  | cons a A ih =>
    intro rest hA
    have hnot : ¬ pat.isPrefixOf ((a :: A) ++ rest) := by
      intro hp
      have h0 := hA 0 (Nat.succ_pos _)
      simp only [Nat.sub_zero, List.drop_zero] at h0
      exact h0 (by
        rw [List.isPrefixOf_iff_prefix]
        exact prefix_take_of_prefix_append (List.isPrefixOf_iff_prefix.mp hp))
    rw [List.cons_append,
      listReplace_cons_neg pat repl a (A ++ rest) (fun hc => hnot (by
        rw [List.cons_append]; exact hc.2)),
      ih rest (fun i hi => by
        have := hA (i + 1) (Nat.succ_lt_succ hi)
        simpa using this)]
    simp

/-- The request URL built by `CustomerAppAndroidGetCall::doit`: base URL,
`v1/`, the reserved-expansion encoding of the `name` path parameter, and the
query string of the remaining parameters ending in `alt=json`. -/
theorem requestUrl_android_eq (c : CustomerAppAndroidGetCall)
    (hbase : c.base_url = chromeManagementBaseUrl)
    (hcf : ∀ kv ∈ c._additional_params, ¬ kv.1 ∈ androidGetKnownFields) :
    c.requestUrl = chromeManagementBaseUrl ++ "v1/" ++ percentEncodeReserved c._name
      ++ "?" ++ String.intercalate "&"
        ((c._additional_params ++ [("alt", "json")]).map (fun kv => kv.1 ++ "=" ++ kv.2)) := by
  have hlookup : c.params.lookup "name" = some c._name := by
    simp [CustomerAppAndroidGetCall.params, List.lookup]
  have hqp : c.params.remove_params ["name"] = c._additional_params ++ [("alt", "json")] := by
    rw [CustomerAppAndroidGetCall.params, Params.remove_params]
    rw [List.filter_cons]
    rw [show (!(["name"].contains (("name", c._name) : String × String).1)) = false from rfl]
    rw [if_neg (by simp)]
    rw [List.filter_eq_self.mpr]
    intro kv hkv
    rcases List.mem_append.mp hkv with hmem | hmem
    · have := hcf kv hmem
      simp only [androidGetKnownFields, List.mem_cons, List.mem_singleton, not_or] at this
      simp [this.2]
    · simp only [List.mem_singleton] at hmem
      subst hmem
      decide
  rw [CustomerAppAndroidGetCall.requestUrl]
  simp only [Params.uri_replacement, hlookup, hqp, Params.parse_with_url]
  congr 1
  congr 1
  rw [hbase]
  have hsplit : chromeManagementBaseUrl ++ "v1/\x7b+name\x7d"
      = (chromeManagementBaseUrl ++ "v1/") ++ "\x7b+name\x7d" := by
    rw [String.append_assoc]
    rfl
  rw [hsplit]
  have hdata : ((chromeManagementBaseUrl ++ "v1/") ++ "\x7b+name\x7d").data
      = (chromeManagementBaseUrl ++ "v1/").data ++ "\x7b+name\x7d".data :=
    String.data_append _ _
  rw [hdata]
  have hskip := listReplace_skip "\x7b+name\x7d".data (percentEncodeReserved c._name).data
    (chromeManagementBaseUrl ++ "v1/").data "\x7b+name\x7d".data (by decide)
  rw [hskip]
  have hmatch : listReplace "\x7b+name\x7d".data (percentEncodeReserved c._name).data
      "\x7b+name\x7d".data = (percentEncodeReserved c._name).data := by
    have := listReplace_match "\x7b+name\x7d".data (percentEncodeReserved c._name).data
      (by decide) []
    rw [List.append_nil] at this
    rw [this, listReplace_nil, List.append_nil]
  rw [hmatch]
  apply String.ext
  simp [String.data_append]

/-- The request URL built by `CustomerReportCountChromeVersionCall::doit`. -/
theorem requestUrl_report_eq (c : CustomerReportCountChromeVersionCall)
    (hbase : c.base_url = chromeManagementBaseUrl)
    (hcf : ∀ kv ∈ c._additional_params, ¬ kv.1 ∈ countChromeVersionsKnownFields) :
    c.requestUrl = chromeManagementBaseUrl ++ "v1/" ++ percentEncodeReserved c._customer
      ++ "/reports:countChromeVersions" ++ "?" ++ String.intercalate "&"
        (((match c._page_token with | some v => [("pageToken", v)] | none => [])
          ++ (match c._page_size with | some v => [("pageSize", toString v)] | none => [])
          ++ (match c._org_unit_id with | some v => [("orgUnitId", v)] | none => [])
          ++ (match c._filter with | some v => [("filter", v)] | none => [])
          ++ c._additional_params ++ [("alt", "json")]).map (fun kv => kv.1 ++ "=" ++ kv.2)) := by
  have hlookup : c.params.lookup "customer" = some c._customer := by
    simp [CustomerReportCountChromeVersionCall.params, List.lookup]
  have hqp : c.params.remove_params ["customer"]
      = (match c._page_token with | some v => [("pageToken", v)] | none => [])
        ++ (match c._page_size with | some v => [("pageSize", toString v)] | none => [])
        ++ (match c._org_unit_id with | some v => [("orgUnitId", v)] | none => [])
        ++ (match c._filter with | some v => [("filter", v)] | none => [])
        ++ c._additional_params ++ [("alt", "json")] := by
    rw [CustomerReportCountChromeVersionCall.params, Params.remove_params]
    rw [List.filter_cons]
    rw [show (!(["customer"].contains (("customer", c._customer) : String × String).1))
        = false from rfl]
    rw [if_neg (by simp)]
    rw [List.filter_eq_self.mpr]
    intro kv hkv
    simp only [List.mem_append, List.mem_singleton] at hkv
    rcases hkv with (((((h | h) | h) | h) | h) | h)
    · rcases hpt : c._page_token with _ | v <;> rw [hpt] at h <;> simp at h
      subst h; rfl
    · rcases hps : c._page_size with _ | v <;> rw [hps] at h <;> simp at h
      subst h; rfl
    · rcases hou : c._org_unit_id with _ | v <;> rw [hou] at h <;> simp at h
      subst h; rfl
    · rcases hfi : c._filter with _ | v <;> rw [hfi] at h <;> simp at h
      subst h; rfl
    · have := hcf kv h
      simp only [countChromeVersionsKnownFields, List.mem_cons, List.mem_singleton,
        not_or] at this
      simp [this.2.1]
    · subst h; decide
  rw [CustomerReportCountChromeVersionCall.requestUrl]
  simp only [Params.uri_replacement, hlookup, hqp, Params.parse_with_url]
  congr 1
  congr 1
  rw [hbase]
  have hsplit : chromeManagementBaseUrl ++ "v1/\x7b+customer\x7d/reports:countChromeVersions"
      = ((chromeManagementBaseUrl ++ "v1/") ++ "\x7b+customer\x7d")
          ++ "/reports:countChromeVersions" := by
    rw [String.append_assoc, String.append_assoc]
    rfl
  rw [hsplit]
  rw [String.data_append, String.data_append]
  rw [List.append_assoc]
  rw [listReplace_skip "\x7b+customer\x7d".data (percentEncodeReserved c._customer).data
    (chromeManagementBaseUrl ++ "v1/").data _ (by decide)]
  rw [listReplace_match "\x7b+customer\x7d".data (percentEncodeReserved c._customer).data
    (by decide) "/reports:countChromeVersions".data]
  rw [show "/reports:countChromeVersions".data
      = "/reports:countChromeVersions".data ++ [] from (List.append_nil _).symm]
  rw [listReplace_skip "\x7b+customer\x7d".data (percentEncodeReserved c._customer).data
    "/reports:countChromeVersions".data [] (by decide)]
  rw [listReplace_nil, List.append_nil]
  apply String.ext
  simp [String.data_append]

/-- Reserved expansion leaves `/` intact and encodes around it
character-wise. -/
theorem percentEncodeReserved_slash (a b : String) :
    percentEncodeReserved (a ++ "/" ++ b)
      = percentEncodeReserved a ++ "/" ++ percentEncodeReserved b := by
  apply String.ext
  show ((a ++ "/") ++ b).data.flatMap percentEncodeCharReserved = _
  rw [String.data_append, String.data_append, List.flatMap_append, List.flatMap_append]
  rw [show ("/" : String).data.flatMap percentEncodeCharReserved = ['/'] from rfl]
  rfl

/-- Claim C3: the request URL equals the hub base URL plus the operation's
relative template with the path-parameter token replaced by the
reserved-expansion percent-encoding of its value (an encoding that preserves
`/`), the path-parameter name removed from the query set, and the query
string ending in `alt=json` — for both embedded call builders. -/
theorem doit_request_url :
    (∀ a b : String, percentEncodeReserved (a ++ "/" ++ b)
        = percentEncodeReserved a ++ "/" ++ percentEncodeReserved b)
    ∧ (∀ c : CustomerAppAndroidGetCall, c.base_url = chromeManagementBaseUrl →
        (∀ kv ∈ c._additional_params, ¬ kv.1 ∈ androidGetKnownFields) →
        c.requestUrl = chromeManagementBaseUrl ++ "v1/" ++ percentEncodeReserved c._name
          ++ "?" ++ String.intercalate "&"
            ((c._additional_params ++ [("alt", "json")]).map (fun kv => kv.1 ++ "=" ++ kv.2)))
    ∧ (∀ c : CustomerReportCountChromeVersionCall, c.base_url = chromeManagementBaseUrl →
        (∀ kv ∈ c._additional_params, ¬ kv.1 ∈ countChromeVersionsKnownFields) →
        c.requestUrl = chromeManagementBaseUrl ++ "v1/"
          ++ percentEncodeReserved c._customer ++ "/reports:countChromeVersions"
          ++ "?" ++ String.intercalate "&"
            (((match c._page_token with | some v => [("pageToken", v)] | none => [])
              ++ (match c._page_size with | some v => [("pageSize", toString v)] | none => [])
              ++ (match c._org_unit_id with | some v => [("orgUnitId", v)] | none => [])
              ++ (match c._filter with | some v => [("filter", v)] | none => [])
              ++ c._additional_params ++ [("alt", "json")]).map
                (fun kv => kv.1 ++ "=" ++ kv.2))) :=
  ⟨percentEncodeReserved_slash,
   fun c h1 h2 => requestUrl_android_eq c h1 h2,
   fun c h1 h2 => requestUrl_report_eq c h1 h2⟩

/-- Witness for claim C3 at the end-to-end example call of the
specification. -/
theorem doit_request_url_witness :
    (⟨chromeManagementBaseUrl, "customers/my_customer/apps/android/com.foo",
        [("key", "k")], []⟩ : CustomerAppAndroidGetCall).requestUrl
      = chromeManagementBaseUrl ++ "v1/"
        ++ percentEncodeReserved "customers/my_customer/apps/android/com.foo"
        ++ "?" ++ String.intercalate "&"
          (([("key", "k")] ++ [("alt", "json")]).map (fun kv => kv.1 ++ "=" ++ kv.2)) :=
  doit_request_url.2.1
    ⟨chromeManagementBaseUrl, "customers/my_customer/apps/android/com.foo",
      [("key", "k")], []⟩ rfl (by decide)

/-- Claim C4: a non-2xx response that the delegate does not retry maps to
`BadRequest` carrying the parsed JSON body when the body parses, and to
`Failure` carrying the raw restored response when it does not; either way it
is terminal after that one request. -/
theorem doit_non2xx_error_mapping :
    ∀ (c : CustomerAppAndroidGetCall)
      (auth : List String → Except String (Option String)) (tok : Option String)
      (dlg : Delegate) (status : Nat) (body : Body) (fuel : Nat),
      (∀ k ∈ androidGetKnownFields,
        c._additional_params.any (fun kv => kv.1 = k) = false) →
      auth c.effectiveScopes = .ok tok →
      statusIsSuccess status = false →
      dlg.http_failure ⟨status, body⟩ body.json = .abort →
      (∀ j, body.json = some j →
        c.doit auth (fun _ _ => .response status body) (some dlg) (fuel + 1)
          = some (.error (.badRequest j), ⟨1, 1⟩))
      ∧ (body.json = none →
        c.doit auth (fun _ _ => .response status body) (some dlg) (fuel + 1)
          = some (.error (.failure ⟨status, body⟩), ⟨1, 1⟩)) := by
  intro c auth tok dlg status body fuel hcf hauth hst hfail
  have hfind : androidGetKnownFields.find?
      (fun field => c._additional_params.any (fun kv => kv.1 = field)) = none :=
    List.find?_eq_none.mpr (fun x hx => by simp [hcf x hx])
  constructor
  · intro j hj
    rw [hj] at hfail
    rw [CustomerAppAndroidGetCall.doit, hfind]
    simp only [Option.getD]
    rw [doitLoop.eq_2]
    simp [hauth, hst, hfail, hj]
  · intro hj
    rw [hj] at hfail
    rw [CustomerAppAndroidGetCall.doit, hfind]
    simp only [Option.getD]
    rw [doitLoop.eq_2]
    simp [hauth, hst, hfail, hj]

/-- Witness for claim C4: a 404 with a JSON body gives `BadRequest` with the
parsed value; a 500 with an unparseable body gives `Failure` with the raw
response. -/
theorem doit_non2xx_error_mapping_witness :
    ((⟨chromeManagementBaseUrl, "n", [], []⟩ : CustomerAppAndroidGetCall).doit
        (fun _ => .ok (some "tok"))
        (fun _ _ => .response 404 ⟨"\x7b\"error\":4\x7d", some (.obj [("error", .num 4)])⟩)
        (some DefaultDelegate) 1
      = some (.error (.badRequest (.obj [("error", .num 4)])), ⟨1, 1⟩))
    ∧ ((⟨chromeManagementBaseUrl, "n", [], []⟩ : CustomerAppAndroidGetCall).doit
        (fun _ => .ok (some "tok"))
        (fun _ _ => .response 500 ⟨"oops", none⟩) (some DefaultDelegate) 1
      = some (.error (.failure ⟨500, ⟨"oops", none⟩⟩), ⟨1, 1⟩)) :=
  ⟨(doit_non2xx_error_mapping ⟨chromeManagementBaseUrl, "n", [], []⟩
      (fun _ => .ok (some "tok")) (some "tok") DefaultDelegate 404
      ⟨"\x7b\"error\":4\x7d", some (.obj [("error", .num 4)])⟩ 0
      (by decide) rfl rfl rfl).1 (.obj [("error", .num 4)]) rfl,
   (doit_non2xx_error_mapping ⟨chromeManagementBaseUrl, "n", [], []⟩
      (fun _ => .ok (some "tok")) (some "tok") DefaultDelegate 500
      ⟨"oops", none⟩ 0 (by decide) rfl rfl rfl).2 rfl⟩

/-- Claim C5: a 2xx response whose body fails to deserialize into the typed
schema yields `JsonDecodeError` carrying the raw body and the parser
diagnostics, terminal after the one request that produced the 2xx response,
whatever the delegate would answer and whatever fuel remains. -/
theorem doit_decode_error_no_retry :
    ∀ (c : CustomerAppAndroidGetCall)
      (auth : List String → Except String (Option String)) (tok : Option String)
      (dlg : Delegate) (status : Nat) (body : Body) (diag : String) (fuel : Nat),
      (∀ k ∈ androidGetKnownFields,
        c._additional_params.any (fun kv => kv.1 = k) = false) →
      auth c.effectiveScopes = .ok tok →
      statusIsSuccess status = true →
      decodeBodyVia decodeAppDetails body = .error diag →
      c.doit auth (fun _ _ => .response status body) (some dlg) (fuel + 1)
        = some (.error (.jsonDecodeError body.raw diag), ⟨1, 1⟩) := by
  intro c auth tok dlg status body diag fuel hcf hauth hst hdec
  have hfind : androidGetKnownFields.find?
      (fun field => c._additional_params.any (fun kv => kv.1 = field)) = none :=
    List.find?_eq_none.mpr (fun x hx => by simp [hcf x hx])
  rw [CustomerAppAndroidGetCall.doit, hfind]
  simp only [Option.getD]
  rw [doitLoop.eq_2]
  simp [hauth, hst, hdec]

/-- Witness for claim C5: a 200 response whose body is a JSON array cannot
decode into the schema struct and is terminal at one request even under an
always-retrying delegate with fuel to spare. -/
theorem doit_decode_error_no_retry_witness :
    (⟨chromeManagementBaseUrl, "n", [], []⟩ : CustomerAppAndroidGetCall).doit
        (fun _ => .ok (some "tok"))
        (fun _ _ => .response 200 ⟨"[1]", some (.arr [.num 1])⟩)
        (some ⟨fun e => .error e, fun _ => .after 1, fun _ _ => .after 1⟩) 8
      = some (.error (.jsonDecodeError "[1]"
          "invalid type: expected struct GoogleChromeManagementV1AppDetails"), ⟨1, 1⟩) :=
  doit_decode_error_no_retry ⟨chromeManagementBaseUrl, "n", [], []⟩
    (fun _ => .ok (some "tok")) (some "tok")
    ⟨fun e => .error e, fun _ => .after 1, fun _ _ => .after 1⟩ 200
    ⟨"[1]", some (.arr [.num 1])⟩
    "invalid type: expected struct GoogleChromeManagementV1AppDetails" 7
    (by decide) rfl rfl rfl

/-- Claim C6: contrary to the claim (and to `clear_scopes`' documentation),
a call whose scope set is empty at `doit` time is not treated as
unauthenticated — `doit` inserts the default scope
`chrome.management.appdetails.readonly` and asks the token provider for it,
as evaluating the code on a cleared call shows. -/
theorem cleared_scopes_still_use_default_scope :
    clearedScopesCall._scopes = []
    ∧ clearedScopesCall.effectiveScopes
        = ["https://www.googleapis.com/auth/chrome.management.appdetails.readonly"]
    ∧ clearedScopesCall.doit
        (fun scopes =>
          if scopes
              = ["https://www.googleapis.com/auth/chrome.management.appdetails.readonly"]
          then .error "denied" else .ok none)
        (fun _ _ => .response 200 ⟨"\x7b\x7d", some (.obj [])⟩) none 1
      = some (.error (.missingToken "denied"), ⟨1, 0⟩) :=
  ⟨rfl, rfl, rfl⟩

/-- Claim C7: contrary to the claim, the CLI's debug flag can never switch
the error rendering to the verbose form — `main` registers the flag under
the name `debug` but queries `adebug`, a name that is never registered, so
the computed debug mode is false even for an invocation that passes
`--debug` and the API-error rendering stays in the plain display form. -/
theorem debug_flag_ignored :
    mainDebugFlag ["debug"] = false
    ∧ renderApiError (mainDebugFlag ["debug"]) = .displayForm
    ∧ renderApiError true = .debugForm
    ∧ ("debug" ∈ billingCliGlobalArgs ∧ "debug" ∈ customsearchCliGlobalArgs)
    ∧ ("adebug" ∉ billingCliGlobalArgs ∧ "adebug" ∉ customsearchCliGlobalArgs) := by
  decide

/-- Claim C8: the CLI process exit status is 0 exactly on success, given
that every invalid-options error carries a nonzero exit code (the codes
constructed in the generated `Engine::new` are 3 and 4). -/
theorem cli_exit_status_zero_iff_success :
    ∀ o : CliOutcome, (∀ ec, o = .invalidOptions ec → ec ≠ 0) →
      (mainExitStatus o = 0 ↔ o = .success) := by
  intro o h
  cases o with
  | invalidOptions ec =>
    simp only [mainExitStatus]
    constructor
    · intro hc; exact absurd hc (h ec rfl)
    · intro hc; cases hc
  | doitIoError p => simp [mainExitStatus]
  | doitApiError => simp [mainExitStatus]
  | success => simp [mainExitStatus]

/-- Witness for claim C8 at the API-error and success outcomes. -/
theorem cli_exit_status_zero_iff_success_witness :
    (mainExitStatus .doitApiError = 0 ↔ (CliOutcome.doitApiError = .success))
    ∧ (mainExitStatus .success = 0 ↔ (CliOutcome.success = .success)) :=
  ⟨cli_exit_status_zero_iff_success .doitApiError (fun _ h => nomatch h),
   cli_exit_status_zero_iff_success .success (fun _ h => nomatch h)⟩

/-- Claim C9: serializing a `GoogleTypeDate` and deserializing the result
gives back the same value (for representable `i32` fields), and the zero
sentinel is preserved exactly — a field holding `0` serializes differently
from an absent (`None`) field. -/
theorem googleTypeDate_roundtrip :
    ∀ d : GoogleTypeDate, i32InRange d.day → i32InRange d.month → i32InRange d.year →
      (GoogleTypeDate.fromJson d.toJson = .ok d)
      ∧ (GoogleTypeDate.toJson ⟨d.day, d.month, some 0⟩
          ≠ GoogleTypeDate.toJson ⟨d.day, d.month, none⟩) := by
  intro d hd hm hy
  constructor
  · rcases d with ⟨dd, dm, dy⟩
    simp only [i32InRange] at hd hm hy
    rcases dd with _ | n <;> rcases dm with _ | m <;> rcases dy with _ | y <;>
      simp [GoogleTypeDate.toJson, GoogleTypeDate.fromJson, getField, List.lookup,
        optIntToJson, decodeOptI32, hd, hm, hy] <;> rfl
  · simp [GoogleTypeDate.toJson, optIntToJson]

/-- Witness for claim C9: a partial date with day 31, no month and the
year-0 sentinel round-trips exactly. -/
theorem googleTypeDate_roundtrip_witness :
    (GoogleTypeDate.fromJson (GoogleTypeDate.toJson ⟨some 31, none, some 0⟩)
      = .ok ⟨some 31, none, some 0⟩)
    ∧ (GoogleTypeDate.toJson ⟨some 31, none, some 0⟩
        ≠ GoogleTypeDate.toJson ⟨some 31, none, none⟩) :=
  googleTypeDate_roundtrip ⟨some 31, none, some 0⟩ (by decide) (by decide) (by decide)

/-- Cleaning never turns a non-null value into null. -/
theorem removeJsonNullValues_ne_null (v : Json) (h : v ≠ .null) :
    removeJsonNullValues v ≠ .null := by
  cases v <;> simp [removeJsonNullValues] at h ⊢

/-- Cleaned array elements stay clean when every element cleans up. -/
theorem noNullFieldList_of (xs : List Json)
    (h : ∀ x ∈ xs, noNullField (removeJsonNullValues x) = true) :
    noNullFieldList (removeJsonNullValuesList xs) = true := by
  induction xs with
  | nil => simp [removeJsonNullValuesList, noNullFieldList]
  | cons x xs ihx =>
    simp only [removeJsonNullValuesList, noNullFieldList, Bool.and_eq_true]
    exact ⟨h x (List.mem_cons_self _ _),
      ihx (fun y hy => h y (List.mem_cons_of_mem _ hy))⟩

/-- Cleaned object fields are non-null and clean when every kept value
cleans up. -/
theorem noNullFieldFields_of (fs : List (String × Json))
    (h : ∀ kv ∈ fs, noNullField (removeJsonNullValues kv.2) = true) :
    noNullFieldFields (removeJsonNullValuesFields fs) = true := by
  induction fs with
  | nil => simp [removeJsonNullValuesFields, noNullFieldFields]
  | cons kv fs ihf =>
    obtain ⟨k, v⟩ := kv
    have hrest : ∀ kv ∈ fs, noNullField (removeJsonNullValues kv.2) = true :=
      fun kv hkv => h kv (List.mem_cons_of_mem _ hkv)
    cases v with
    | null =>
      simp only [removeJsonNullValuesFields]
      exact ihf hrest
    | bool b =>
      simp only [removeJsonNullValuesFields, noNullFieldFields, Bool.and_eq_true]
      exact ⟨⟨by simp [removeJsonNullValues], h (k, .bool b) (List.mem_cons_self _ _)⟩,
        ihf hrest⟩
    | num n =>
      simp only [removeJsonNullValuesFields, noNullFieldFields, Bool.and_eq_true]
      exact ⟨⟨by simp [removeJsonNullValues], h (k, .num n) (List.mem_cons_self _ _)⟩,
        ihf hrest⟩
    | str s =>
      simp only [removeJsonNullValuesFields, noNullFieldFields, Bool.and_eq_true]
      exact ⟨⟨by simp [removeJsonNullValues], h (k, .str s) (List.mem_cons_self _ _)⟩,
        ihf hrest⟩
    | arr xs =>
      simp only [removeJsonNullValuesFields, noNullFieldFields, Bool.and_eq_true]
      exact ⟨⟨by simp [removeJsonNullValues], h (k, .arr xs) (List.mem_cons_self _ _)⟩,
        ihf hrest⟩
    | obj gs =>
      simp only [removeJsonNullValuesFields, noNullFieldFields, Bool.and_eq_true]
      exact ⟨⟨by simp [removeJsonNullValues], h (k, .obj gs) (List.mem_cons_self _ _)⟩,
        ihf hrest⟩

/-- Strong-induction core of claim C10 over the size of the JSON value. -/
theorem noNullField_removeJsonNullValues_aux :
    ∀ (n : Nat) (v : Json), sizeOf v ≤ n → noNullField (removeJsonNullValues v) = true := by
  intro n
  induction n using Nat.strong_induction_on with
  | _ n ih =>
    intro v hv
    cases v with
    | null => simp [removeJsonNullValues, noNullField]
    | bool b => simp [removeJsonNullValues, noNullField]
    | num k => simp [removeJsonNullValues, noNullField]
    | str s => simp [removeJsonNullValues, noNullField]
    | arr xs =>
      simp only [removeJsonNullValues, noNullField]
      apply noNullFieldList_of
      intro x hx
      have hlt : sizeOf x < sizeOf xs := List.sizeOf_lt_of_mem hx
      have hsz : sizeOf (Json.arr xs) = 1 + sizeOf xs := by simp
      exact ih (sizeOf x) (by omega) x le_rfl
    | obj fs =>
      simp only [removeJsonNullValues, noNullField]
      apply noNullFieldFields_of
      intro kv hkv
      have hlt : sizeOf kv < sizeOf fs := List.sizeOf_lt_of_mem hkv
      have hkv2 : sizeOf kv.2 < sizeOf kv := by
        obtain ⟨a, b⟩ := kv
        simp
      have hsz : sizeOf (Json.obj fs) = 1 + sizeOf fs := by simp
      exact ih (sizeOf kv.2) (by omega) kv.2 le_rfl

/-- Claim C10: the JSON value the CLI emits after the null-stripping pass
contains no null object field anywhere. -/
theorem cli_emit_no_null_field : ∀ v : Json, noNullField (cliEmitJson v) = true :=
  fun v => noNullField_removeJsonNullValues_aux (sizeOf v) v le_rfl
